/-
Verification of the feature-extraction and clustering core of the
pdf-clustering-ocr-pipeline repository (src/clustering.py,
src/feature_extractor.py, src/config.py).

Shallow embedding conventions:
* Python floats are modelled as rationals (ℚ).  The only reachable IEEE
  special value in the verified code paths is the NaN produced by the 0/0
  integer-to-float division in `_compute_grid_density`; grid cells are
  therefore modelled as `Option ℚ` with `none` standing for NaN.
* `numpy` / `scikit-learn` / `cv2` library calls are modelled from their
  documented behaviour: `StandardScaler` as explicit state passing with
  `fit` resetting the state, `np.hstack` / `check_array` failure cases as
  `Except` errors, `KMeans.fit_predict` as deterministic Lloyd iteration
  with farthest-first seeding and sklearn's empty-cluster relocation,
  `DBSCAN.fit_predict` as the textbook label-propagation algorithm.
  Square roots (needed by `StandardScaler` and cosine distances) and the
  `arctan2`-based angle of a Hough segment are not rational functions, so
  they are passed in as explicit function parameters; no verified claim
  depends on their values.
* Every `raise ValueError` observable from the verified functions is one
  constructor of `PyError`; the spec's error taxonomy names map onto these
  constructors (`DimensionMismatchError` ↦ `shapeMismatch`,
  `UnsupportedMethodError` ↦ `unsupportedMethod`).
-/
import Mathlib

/-- One feature vector: a row of Python floats, modelled as rationals. -/
abbrev Vec := List ℚ

/-- A 2-D numpy array: list of rows. -/
abbrev Mat := List Vec

/-- Python `x or default` for an optional float argument: `None` and the
falsy value `0.0` both select the default (src/clustering.py lines 69-70). -/
def pyOrQ (x : Option ℚ) (d : ℚ) : ℚ :=
  match x with
  | none => d
  | some v => if v = 0 then d else v

/-- Python `x or default` for an optional string argument: `None` and the
falsy empty string both select the default (src/clustering.py line 103). -/
def pyOrStr (x : Option String) (d : String) : String :=
  match x with
  | none => d
  | some v => if v = "" then d else v

/-- Python `x or default` for an optional int argument: `None` and the falsy
value `0` both select the default (src/clustering.py line 111). -/
def pyOrNat (x : Option Nat) (d : Nat) : Nat :=
  match x with
  | none => d
  | some v => if v = 0 then d else v

namespace Config

/-- Config.CLUSTERING_METHOD (src/config.py). -/
def CLUSTERING_METHOD : String := "dbscan"

/-- Config.DBSCAN_EPS (src/config.py). -/
def DBSCAN_EPS : ℚ := 1/2

/-- Config.DBSCAN_MIN_SAMPLES (src/config.py). -/
def DBSCAN_MIN_SAMPLES : Nat := 2

/-- Config.KMEANS_N_CLUSTERS (src/config.py). -/
def KMEANS_N_CLUSTERS : Nat := 10

/-- Config.TEXT_WEIGHT (src/config.py line 41). -/
def TEXT_WEIGHT : ℚ := 7/10

/-- Config.LAYOUT_WEIGHT (src/config.py line 42). -/
def LAYOUT_WEIGHT : ℚ := 3/10

end Config

/-- The `ValueError`s observable from the embedded functions, one
constructor per raise site:
* `invalidArray`: `sklearn.utils.check_array` rejecting an empty or ragged
  input inside `StandardScaler.fit_transform` / `fit_predict`, and
  `np.array` rejecting a ragged list of layout vectors;
* `shapeMismatch`: `np.hstack` rejecting two blocks with different row
  counts (the spec's `DimensionMismatchError`);
* `unsupportedMethod`: the repository's own
  `raise ValueError(f"未対応のクラスタリング手法: {method\x7d")` in
  `DocumentClusterer.cluster` (the spec's `UnsupportedMethodError`). -/
inductive PyError where
  | invalidArray : PyError
  | shapeMismatch : PyError
  | unsupportedMethod : String → PyError
deriving DecidableEq

/-- Fitted statistics of a `sklearn.preprocessing.StandardScaler`:
`n_samples_seen_`, `mean_` and `var_` (one entry per feature column). -/
structure ScalerStats where
  n_seen : Nat
  mean_ : List ℚ
  var_ : List ℚ
deriving DecidableEq

/-- The mutable state of a `StandardScaler` instance: `none` before any
fit, `some` fitted statistics afterwards. -/
abbrev ScalerSt := Option ScalerStats

/-- Mean of each column of a matrix (population mean, as `np.mean`). -/
def colMeans (X : Mat) : List ℚ :=
  X.transpose.map (fun col => col.sum / col.length)

/-- Population variance of each column of a matrix (biased, divided by the
sample count, as `np.var` / `StandardScaler`). -/
def colVars (X : Mat) : List ℚ :=
  X.transpose.map (fun col =>
    ((col.map (fun x => (x - col.sum / col.length) ^ 2)).sum) / col.length)

/-- Statistics that `StandardScaler.fit` computes from one batch. -/
def batchStats (X : Mat) : ScalerStats :=
  ⟨X.length, colMeans X, colVars X⟩

/-- Incremental merge of previously seen statistics with a new batch,
modelling sklearn's `_incremental_mean_and_var` used by
`StandardScaler.partial_fit`. -/
def mergeStats (st : ScalerStats) (X : Mat) : ScalerStats :=
  let n1 : ℚ := st.n_seen
  let n2 : ℚ := X.length
  let n : ℚ := n1 + n2
  let m2 := colMeans X
  let v2 := colVars X
  let mean := (st.mean_.zip m2).map (fun p => (n1 * p.1 + n2 * p.2) / n)
  let var := ((st.var_.zip v2).zip (st.mean_.zip m2)).map
    (fun p => (n1 * p.1.1 + n2 * p.1.2 + n1 * n2 / n * (p.2.1 - p.2.2) ^ 2) / n)
  ⟨st.n_seen + X.length, mean, var⟩

/-- `StandardScaler._reset`: drop all fitted state. -/
def scalerReset (_s : ScalerSt) : ScalerSt := none

/-- `StandardScaler.partial_fit`: fold one batch into the running state. -/
def scalerIncFit (s : ScalerSt) (X : Mat) : ScalerSt :=
  match s with
  | none => some (batchStats X)
  | some st => some (mergeStats st X)

/-- `StandardScaler.fit`: reset, then fold in the batch, so the resulting
statistics come from the current batch only. -/
def scalerFit (s : ScalerSt) (X : Mat) : ScalerSt :=
  scalerIncFit (scalerReset s) X

/-- sklearn's `_handle_zeros_in_scale`: a zero scale is replaced by 1 so
constant columns are left centred instead of dividing by zero. -/
def handleZeros (q : ℚ) : ℚ :=
  if q = 0 then 1 else q

/-- Per-column scale factors of fitted statistics:
`scale_ = _handle_zeros_in_scale(sqrt(var_))`, with the square root
supplied as the explicit parameter `rsqrt`. -/
def scaleOf (rsqrt : ℚ → ℚ) (st : ScalerStats) : List ℚ :=
  st.var_.map (fun v => handleZeros (rsqrt v))

/-- Standardize one row against fitted statistics: `(x - mean_) / scale_`
per column. -/
def standRow (means scales : List ℚ) (row : Vec) : Vec :=
  ((row.zip means).zip scales).map (fun p => (p.1.1 - p.1.2) / p.2)

/-- `StandardScaler.transform` over a whole matrix. -/
def scalerTransform (rsqrt : ℚ → ℚ) (st : ScalerStats) (X : Mat) : Mat :=
  X.map (standRow st.mean_ (scaleOf rsqrt st))

/-- sklearn's `check_array` acceptance test: at least one sample, at least
one feature, and rectangular shape. -/
def validMatrix : Mat → Bool
  | [] => false
  | r :: rest => decide (r.length ≠ 0) && rest.all (fun row => row.length = r.length)

/-- Rectangularity test modelling `np.array` on a list of 1-D vectors,
which raises `ValueError` on a ragged list. -/
def uniformB : Mat → Bool
  | [] => true
  | r :: rest => rest.all (fun row => row.length = r.length)

/-- `StandardScaler.fit_transform`: validate the input as sklearn's
`check_array` does, fit (resetting any previous state), transform, and
return the transformed matrix together with the new scaler state. -/
def fitTransform (rsqrt : ℚ → ℚ) (s : ScalerSt) (X : Mat) :
    Except PyError (Mat × ScalerSt) :=
  if validMatrix X then
    .ok (scalerTransform rsqrt (batchStats X) X, scalerFit s X)
  else
    .error .invalidArray

/-- Elementwise multiplication of a matrix by a scalar weight, modelling
`normalized * weight`. -/
def matScale (X : Mat) (w : ℚ) : Mat :=
  X.map (fun row => row.map (fun x => x * w))

/-- `np.hstack` on two 2-D blocks: concatenates rows pairwise, raising
`ValueError` when the row counts disagree. -/
def hstack (A B : Mat) : Except PyError Mat :=
  if A.length = B.length then
    .ok (A.zipWith (fun r1 r2 => r1 ++ r2) B)
  else
    .error .shapeMismatch

/-- `DocumentClusterer.combine_features` (src/clustering.py lines 49-84):
resolve the weights with Python `or`, build the layout array, fit-transform
text then layout with the one shared scaler (threaded as explicit state),
weight both blocks and horizontally stack them. -/
def combine_features (rsqrt : ℚ → ℚ) (s : ScalerSt) (text_embeddings : Mat)
    (layout_features : Mat) (text_weight layout_weight : Option ℚ) :
    Except PyError (Mat × ScalerSt) :=
  let tw := pyOrQ text_weight Config.TEXT_WEIGHT
  let lw := pyOrQ layout_weight Config.LAYOUT_WEIGHT
  if uniformB layout_features then
    match fitTransform rsqrt s text_embeddings with
    | .error e => .error e
    | .ok (text_normalized, s1) =>
      match fitTransform rsqrt s1 layout_features with
      | .error e => .error e
      | .ok (layout_normalized, s2) =>
        match hstack (matScale text_normalized tw) (matScale layout_normalized lw) with
        | .error e => .error e
        | .ok combined => .ok (combined, s2)
  else
    .error .invalidArray

/-- Modelled from the spec: §4.3 feature fusion as "two independent
normalization computations" — a stateless pure standardization of each
feature family, computed from the current batch only, with the same
weighting, stacking and failure conditions as the source. -/
def fuse_independent (rsqrt : ℚ → ℚ) (text_embeddings : Mat)
    (layout_features : Mat) (text_weight layout_weight : Option ℚ) :
    Except PyError Mat :=
  let tw := pyOrQ text_weight Config.TEXT_WEIGHT
  let lw := pyOrQ layout_weight Config.LAYOUT_WEIGHT
  if uniformB layout_features then
    if validMatrix text_embeddings then
      if validMatrix layout_features then
        hstack
          (matScale (scalerTransform rsqrt (batchStats text_embeddings) text_embeddings) tw)
          (matScale (scalerTransform rsqrt (batchStats layout_features) layout_features) lw)
      else .error .invalidArray
    else .error .invalidArray
  else .error .invalidArray

/-- Dot product of two vectors. -/
def dotQ (x y : Vec) : ℚ :=
  (x.zipWith (fun a b => a * b) y).sum

/-- Squared Euclidean distance, the quantity KMeans compares when assigning
points to their nearest centre (taking the square root never changes an
argmin, so sklearn works with squares). -/
def sqDist (x y : Vec) : ℚ :=
  (x.zipWith (fun a b => (a - b) ^ 2) y).sum

/-- Cosine distance `1 - <x,y> / (|x| |y|)` as used by
`DBSCAN(metric="cosine")`; the norms need a square root, supplied as
`rsqrt`. -/
def cosineDist (rsqrt : ℚ → ℚ) (x y : Vec) : ℚ :=
  1 - dotQ x y / (rsqrt (dotQ x x) * rsqrt (dotQ y y))

/-- Indices of the `eps`-neighbourhood of point `i` (the point itself
included, as in sklearn's `radius_neighbors`). -/
def dbNeighbors (rsqrt : ℚ → ℚ) (eps : ℚ) (pts : Mat) (i : Nat) : List Nat :=
  (List.range pts.length).filter
    (fun j => cosineDist rsqrt (pts.getD i []) (pts.getD j []) ≤ eps)

/-- Core-point test of DBSCAN: at least `minSamples` neighbours. -/
def dbIsCore (rsqrt : ℚ → ℚ) (eps : ℚ) (minSamples : Nat) (pts : Mat) (i : Nat) : Bool :=
  minSamples ≤ (dbNeighbors rsqrt eps pts i).length

/-- Cluster-expansion worklist of DBSCAN: grow cluster `c` from a seed
queue, turning provisional noise into border points and spreading through
core points.  Label `-2` means "unvisited", `-1` means "noise".  `fuel`
bounds the queue processing; `(n + 2) ^ 2` steps always suffice since every
point enqueues its neighbour list at most once. -/
def dbExpand (rsqrt : ℚ → ℚ) (eps : ℚ) (minSamples : Nat) (pts : Mat) (c : Int) :
    Nat → List Int → List Nat → List Int
  | 0, labels, _ => labels
  | _ + 1, labels, [] => labels
  | fuel + 1, labels, j :: queue =>
    if labels.getD j (-2) = -1 then
      dbExpand rsqrt eps minSamples pts c fuel (labels.set j c) queue
    else if labels.getD j (-2) ≠ -2 then
      dbExpand rsqrt eps minSamples pts c fuel labels queue
    else
      if dbIsCore rsqrt eps minSamples pts j then
        dbExpand rsqrt eps minSamples pts c fuel (labels.set j c)
          (queue ++ dbNeighbors rsqrt eps pts j)
      else
        dbExpand rsqrt eps minSamples pts c fuel (labels.set j c) queue

/-- Outer scan of DBSCAN: visit every point in index order, mark non-core
unvisited points as noise, and start a new cluster at every unvisited core
point. -/
def dbScanLoop (rsqrt : ℚ → ℚ) (eps : ℚ) (minSamples : Nat) (pts : Mat) :
    List Nat → List Int → Int → List Int
  | [], labels, _ => labels
  | i :: rest, labels, c =>
    if labels.getD i (-2) ≠ -2 then
      dbScanLoop rsqrt eps minSamples pts rest labels c
    else if dbIsCore rsqrt eps minSamples pts i then
      dbScanLoop rsqrt eps minSamples pts rest
        (dbExpand rsqrt eps minSamples pts c ((pts.length + 2) ^ 2)
          (labels.set i c) (dbNeighbors rsqrt eps pts i)) (c + 1)
    else
      dbScanLoop rsqrt eps minSamples pts rest (labels.set i (-1)) c

/-- Model of `sklearn.cluster.DBSCAN(...).fit_predict`: textbook DBSCAN
over the cosine metric; every point receives either a cluster id `0..k-1`
or the noise label `-1`. -/
def dbscanFitPredict (rsqrt : ℚ → ℚ) (eps : ℚ) (minSamples : Nat) (pts : Mat) : List Int :=
  dbScanLoop rsqrt eps minSamples pts (List.range pts.length)
    (List.replicate pts.length (-2)) 0

/-- Index of the centre nearest to `p` (ties to the lowest index),
accumulating over the remaining centres. -/
def nearestAux (p : Vec) : List Vec → Nat → Nat × ℚ → Nat × ℚ
  | [], _, best => best
  | c :: rest, i, best =>
    nearestAux p rest (i + 1) (if sqDist c p < best.2 then (i, sqDist c p) else best)

/-- Index of the centre nearest to `p` among `cs`. -/
def nearest (cs : List Vec) (p : Vec) : Nat :=
  match cs with
  | [] => 0
  | c :: rest => (nearestAux p rest 1 (0, sqDist c p)).1

/-- Smallest squared distance from `p` to an already chosen centre. -/
def minDistToCenters (cs : List Vec) (p : Vec) : ℚ :=
  match cs with
  | [] => 0
  | c :: rest => rest.foldl (fun b c2 => min b (sqDist c2 p)) (sqDist c p)

/-- The point of `pts` farthest from the chosen centres (first maximiser). -/
def farthestPt (cs : List Vec) (pts : Mat) : Vec :=
  match pts with
  | [] => []
  | p :: rest =>
    rest.foldl
      (fun best q =>
        if minDistToCenters cs best < minDistToCenters cs q then q else best) p

/-- Add `n` more centres by farthest-first selection. -/
def initGo (pts : Mat) : Nat → List Vec → List Vec
  | 0, cs => cs
  | n + 1, cs => initGo pts n (cs ++ [farthestPt cs pts])

/-- Deterministic seeding of `k` centres, modelling the seeded `k-means++`
initialisation of `KMeans(random_state=42)` by the greedy farthest-first
rule. -/
def kmeansInit (k : Nat) (pts : Mat) : List Vec :=
  match k, pts with
  | 0, _ => []
  | _, [] => []
  | k + 1, p :: _ => initGo pts k [p]

/-- Nearest-centre label of every point (the E-step). -/
def kmAssign (cs : List Vec) (pts : Mat) : List Nat :=
  pts.map (nearest cs)

/-- Squared distance of every point to its assigned centre. -/
def kmAssignDists (cs : List Vec) (pts : Mat) : List ℚ :=
  pts.map (fun p => sqDist (cs.getD (nearest cs p) []) p)

/-- Indices whose cluster keeps at least one other member, i.e. points a
relocated empty cluster may take over without emptying another cluster. -/
def stealCandidates (labels : List Nat) : List Nat :=
  (List.range labels.length).filter (fun i => 2 ≤ labels.count (labels.getD i 0))

/-- First index attaining the maximal value of `f`. -/
def argmaxBy (f : Nat → ℚ) : List Nat → Option Nat
  | [] => none
  | i :: rest =>
    match argmaxBy f rest with
    | none => some i
    | some j => if f i < f j then some j else some i

/-- The point an empty cluster relocates to: the candidate farthest from
its current centre, as sklearn's `_relocate_empty_clusters` takes the
points with the largest distances. -/
def stealIdx (labels : List Nat) (dists : List ℚ) : Option Nat :=
  argmaxBy (fun i => dists.getD i 0) (stealCandidates labels)

/-- Give each empty cluster one point, following sklearn's empty-cluster
relocation: each empty cluster takes over the farthest point whose own
cluster retains at least another member, so that the final labelling has
every one of the `k` clusters non-empty whenever `k` does not exceed the
number of points. -/
def relocateEmpties : List Nat → List Nat → List ℚ → List Nat
  | [], labels, _ => labels
  | c :: rest, labels, dists =>
    match stealIdx labels dists with
    | none => relocateEmpties rest labels dists
    | some i => relocateEmpties rest (labels.set i c) (dists.set i 0)

/-- Clusters in `0..k-1` that received no point. -/
def emptyClusters (k : Nat) (labels : List Nat) : List Nat :=
  (List.range k).filter (fun c => decide (c ∉ labels))

/-- Assignment labels patched so that no cluster in `0..k-1` is empty. -/
def kmRelocate (k : Nat) (labels : List Nat) (dists : List ℚ) : List Nat :=
  relocateEmpties (emptyClusters k labels) labels dists

/-- Mean of a cluster's points (M-step); an empty cluster keeps its old
centre. -/
def meanVec (vs : List Vec) (old : Vec) : Vec :=
  match vs with
  | [] => old
  | v :: rest =>
    ((rest.foldl (fun a b => a.zipWith (fun x y => x + y) b) v).map
      (fun x => x / (vs.length : ℚ)))

/-- Points currently assigned to cluster `c`. -/
def labeledPts (pts : Mat) (labels : List Nat) (c : Nat) : List Vec :=
  ((pts.zip labels).filter (fun pl => pl.2 = c)).map Prod.fst

/-- Recompute every centre as the mean of its cluster. -/
def updateCenters (pts : Mat) (labels : List Nat) (cs : List Vec) : List Vec :=
  cs.enum.map (fun ic => meanVec (labeledPts pts labels ic.1) ic.2)

/-- Lloyd iteration (assignment, empty-cluster relocation, centre update)
up to `fuel` rounds, stopping early once the centres are stable — the
convergence test of `KMeans(max_iter=300)`. -/
def lloydLoop (pts : Mat) : Nat → List Vec → List Vec
  | 0, cs => cs
  | fuel + 1, cs =>
    let labels := kmRelocate cs.length (kmAssign cs pts) (kmAssignDists cs pts)
    let cs2 := updateCenters pts labels cs
    if cs2 = cs then cs else lloydLoop pts fuel cs2

/-- Model of `sklearn.cluster.KMeans(n_clusters=k, random_state=42,
n_init=10).fit_predict`: deterministic farthest-first seeding, Lloyd
iterations with empty-cluster relocation, and a final assignment plus
relocation; captures the library's contract that every point gets a label
in `0..k-1` and all `k` clusters are non-empty when `k ≤ len(pts)`. -/
def kmeansFitPredict (k : Nat) (pts : Mat) : List Int :=
  if k = 0 then []
  else
    match pts with
    | [] => []
    | _ :: _ =>
      let cs := lloydLoop pts 300 (kmeansInit k pts)
      (kmRelocate k (kmAssign cs pts) (kmAssignDists cs pts)).map Int.ofNat

/-- `DocumentClusterer.cluster` (src/clustering.py lines 86-120): resolve
the method string with Python `or`, dispatch on it, clamp the k-means
cluster count to the number of documents, and run the chosen library
clusterer (which itself rejects an empty feature matrix). -/
def cluster (rsqrt : ℚ → ℚ) (features : Mat) (method : Option String)
    (n_clusters : Option Nat) : Except PyError (List Int) :=
  let m := pyOrStr method Config.CLUSTERING_METHOD
  if m = "dbscan" then
    if features.isEmpty then .error .invalidArray
    else .ok (dbscanFitPredict rsqrt Config.DBSCAN_EPS Config.DBSCAN_MIN_SAMPLES features)
  else if m = "kmeans" then
    let n := pyOrNat n_clusters Config.KMEANS_N_CLUSTERS
    let k := min n features.length
    if features.isEmpty then .error .invalidArray
    else .ok (kmeansFitPredict k features)
  else .error (.unsupportedMethod m)

/-- Characters Python's default `str.strip()` removes. -/
def pyIsSpace (c : Char) : Bool :=
  c = ' ' || c = '\t' || c = '\n' || c = '\r' || c = '\x0b' || c = '\x0c'

/-- Truthiness of `t.strip()`: true iff the string has a non-whitespace
character. -/
def pyStripTruthy (t : String) : Bool :=
  t.any (fun c => !pyIsSpace c)

/-- `DocumentClusterer.compute_text_embeddings` (src/clustering.py lines
37-47): substitute the placeholder for whitespace-only texts, then encode
every processed text with the (externally supplied) sentence-embedding
model `encode`. -/
def compute_text_embeddings (encode : String → Vec) (texts : List String) : Mat :=
  (texts.map (fun t => if pyStripTruthy t then t else "空のドキュメント")).map encode

/-- A detected text block (src/feature_extractor.py `_detect_text_blocks`):
normalized x, y, width, height and area. -/
structure Block where
  x : ℚ
  y : ℚ
  width : ℚ
  height : ℚ
  area : ℚ
deriving DecidableEq

/-- `DocumentFeatures` (src/feature_extractor.py): the unit record flowing
from extraction to clustering.  `pdf_path` is the document identifier. -/
structure DocumentFeatures where
  pdf_path : String
  text : String
  layout_features : Vec
  text_blocks : List Block
deriving DecidableEq

/-- `ClusterResult` (src/clustering.py): document identifier, assigned
cluster id and the fused vector that determined it. -/
structure ClusterResult where
  pdf_path : String
  cluster_id : Int
  combined_vector : Vec
deriving DecidableEq

/-- `DocumentClusterer.process` (src/clustering.py lines 122-166): empty
input short-circuits to the empty result; otherwise embed the texts, gather
the layout vectors, fuse (threading the shared scaler state), cluster, and
zip documents, labels and fused rows into `ClusterResult`s in input
order. -/
def process (encode : String → Vec) (rsqrt : ℚ → ℚ) (s : ScalerSt)
    (doc_features : List DocumentFeatures) (method : Option String)
    (n_clusters : Option Nat) : Except PyError (List ClusterResult × ScalerSt) :=
  if doc_features.isEmpty then .ok ([], s)
  else
    let texts := doc_features.map (fun df => df.text)
    let text_embeddings := compute_text_embeddings encode texts
    let layout_features := doc_features.map (fun df => df.layout_features)
    match combine_features rsqrt s text_embeddings layout_features none none with
    | .error e => .error e
    | .ok (combined, s2) =>
      match cluster rsqrt combined method n_clusters with
      | .error e => .error e
      | .ok labels =>
        .ok ((doc_features.zip (labels.zip combined)).map
          (fun dlv => ⟨dlv.1.pdf_path, dlv.2.1, dlv.2.2⟩), s2)

/-- One step of building the cluster summary dictionary: append the
document to the list of its cluster id, creating the entry at the end of
the (insertion-ordered) dictionary when the key is new. -/
def addToSummary : List (Int × List String) → Int → String → List (Int × List String)
  | [], c, d => [(c, [d])]
  | (c0, l) :: rest, c, d =>
    if c0 = c then (c0, l ++ [d]) :: rest
    else (c0, l) :: addToSummary rest c d

/-- `DocumentClusterer.get_cluster_summary` (src/clustering.py lines
168-183): fold over the results, grouping `pdf_path`s by `cluster_id` in a
Python dict, which preserves both key insertion order and per-key append
order. -/
def get_cluster_summary (results : List ClusterResult) : List (Int × List String) :=
  results.foldl (fun summary r => addToSummary summary r.cluster_id r.pdf_path) []

/-- Lookup of one cluster's list in the summary dictionary. -/
def lookupS (c : Int) : List (Int × List String) → Option (List String)
  | [] => none
  | (c0, l) :: rest => if c0 = c then some l else lookupS c rest

/-- All document ids of the summary, concatenated group by group. -/
def allDocs (s : List (Int × List String)) : List String :=
  s.foldr (fun e acc => e.2 ++ acc) []

/-- A raw bounding box returned by `cv2.boundingRect` on a contour:
pixel x, y, width, height. -/
structure Rect where
  x : Nat
  y : Nat
  bw : Nat
  bh : Nat
deriving DecidableEq

/-- `FeatureExtractor._detect_text_blocks` post-processing
(src/feature_extractor.py lines 76-110): given the contour bounding boxes
the cv2 pipeline found (binarize, dilate, find contours — external calls),
drop boxes smaller than 0.1% of the page, normalize by page width/height,
and sort by vertical position. -/
def detect_text_blocks (contours : List Rect) (h w : Nat) : List Block :=
  ((contours.filter (fun r => !decide ((r.bw * r.bh : ℚ) < w * h * (1/1000)))).map
    (fun r => Block.mk (r.x / w) (r.y / h) (r.bw / w) (r.bh / h)
      ((r.bw * r.bh : ℚ) / (w * h)))).mergeSort (fun a b => a.y ≤ b.y)

/-- A grayscale page image: rows of 8-bit pixel intensities. -/
abbrev Gray := List (List Nat)

/-- One rectangular slice of the image, rows `r1 ≤ r < r2` and columns
`c1 ≤ c < c2` (numpy slicing). -/
def cellSlice (gray : Gray) (r1 r2 c1 c2 : Nat) : List (List Nat) :=
  ((gray.drop r1).take (r2 - r1)).map (fun row => (row.drop c1).take (c2 - c1))

/-- `FeatureExtractor._compute_grid_density` (src/feature_extractor.py
lines 149-166): split the image into `rows × cols` cells of size
`(h // rows) × (w // cols)` and compute the fraction of pixels darker than
128 in each.  When the image is smaller than the grid the cells are empty
and numpy's `0 / 0` float division yields NaN, modelled as `none`. -/
def compute_grid_density (gray : Gray) (rows cols : Nat) : List (Option ℚ) :=
  let h := gray.length
  let w := (gray.headD []).length
  let cellH := h / rows
  let cellW := w / cols
  (List.range rows).flatMap (fun i =>
    (List.range cols).map (fun j =>
      let cell := cellSlice gray (i * cellH) ((i + 1) * cellH) (j * cellW) ((j + 1) * cellW)
      let size : Nat := (cell.map List.length).sum
      let dark : Nat := (cell.map (fun row => (row.filter (fun p => p < 128)).length)).sum
      if size = 0 then none else some ((dark : ℚ) / (size : ℚ))))

/-- A line segment `(x1, y1, x2, y2)` returned by `cv2.HoughLinesP`. -/
structure Segment where
  x1 : Int
  y1 : Int
  x2 : Int
  y2 : Int
deriving DecidableEq

/-- `FeatureExtractor._detect_lines` post-processing
(src/feature_extractor.py lines 168-193): the Canny + Hough transform is an
external cv2 call whose result (possibly `None`) is the parameter `hough`;
each segment is classified by the absolute value of its `arctan2` angle in
degrees (supplied as `angleOf`), horizontal below 10°, vertical above 80°,
and each count is divided by 100 and capped at 1. -/
def detect_lines (angleOf : Segment → ℚ) (hough : Option (List Segment)) : ℚ × ℚ :=
  let counts : Nat × Nat :=
    match hough with
    | none => (0, 0)
    | some lines =>
      lines.foldl
        (fun hv seg =>
          let a := |angleOf seg|
          if a < 10 then (hv.1 + 1, hv.2)
          else if 80 < a then (hv.1, hv.2 + 1)
          else hv)
        (0, 0)
  (min ((counts.1 : ℚ) / 100) 1, min ((counts.2 : ℚ) / 100) 1)

/-- Mean of a list of rationals, as `np.mean`. -/
def npMean (xs : List ℚ) : ℚ :=
  xs.sum / xs.length

/-- Population standard deviation, as `np.std`: the square root (supplied
as `rsqrt`) of the population variance. -/
def npStd (rsqrt : ℚ → ℚ) (xs : List ℚ) : ℚ :=
  rsqrt (((xs.map (fun x => (x - npMean xs) ^ 2)).sum) / xs.length)

/-- `FeatureExtractor._extract_layout_features` (src/feature_extractor.py
lines 112-147): block count, total block area, the 3×3 grid densities, the
mean and standard deviation of the blocks' vertical centres (0.5 and 0 for
no blocks), and the two normalized line counts — 15 components in all.
Components are `Option ℚ` because the grid cells can be NaN (`none`) on
degenerate images; all other components are always `some`. -/
def extract_layout_features (rsqrt : ℚ → ℚ) (angleOf : Segment → ℚ)
    (hough : Option (List Segment)) (gray : Gray) (text_blocks : List Block) :
    List (Option ℚ) :=
  let pos : List (Option ℚ) :=
    match text_blocks with
    | [] => [some (1/2), some 0]
    | _ :: _ =>
      let y_positions := text_blocks.map (fun b => b.y + b.height / 2)
      [some (npMean y_positions),
       some (if 1 < y_positions.length then npStd rsqrt y_positions else 0)]
  let lines := detect_lines angleOf hough
  some (text_blocks.length : ℚ) ::
    some ((text_blocks.map (fun b => b.area)).sum) ::
      (compute_grid_density gray 3 3 ++ pos ++ [some lines.1, some lines.2])

/-- Membership of an optional float in the closed unit interval; NaN
(`none`) is outside. -/
def isUnitOpt : Option ℚ → Bool
  | none => false
  | some q => decide (0 ≤ q) && decide (q ≤ 1)

/- `Rat.add`, `Rat.mul`, `Rat.sub` and `Rat.inv` are `@[irreducible]` in the
library; the concrete witness evaluations below need them unfolded. -/
attribute [local semireducible] Rat.add Rat.mul Rat.sub Rat.inv

/-! Helper lemmas about the fusion pipeline. -/

theorem length_matScale (X : Mat) (w : ℚ) : (matScale X w).length = X.length := by
  simp [matScale]

theorem length_scalerTransform (rsqrt : ℚ → ℚ) (st : ScalerStats) (X : Mat) :
    (scalerTransform rsqrt st X).length = X.length := by
  simp [scalerTransform]

theorem validMatrix_uniform (X : Mat) (h : validMatrix X = true) : uniformB X = true := by
  cases X with
  | nil => simp [validMatrix] at h
  | cons r rest =>
    simp [validMatrix] at h
    simpa [uniformB] using h.2

theorem combine_features_char (rsqrt : ℚ → ℚ) (s : ScalerSt) (text layout : Mat)
    (tw lw : Option ℚ) :
    combine_features rsqrt s text layout tw lw =
      if uniformB layout = true then
        if validMatrix text = true then
          if validMatrix layout = true then
            if text.length = layout.length then
              .ok ((matScale (scalerTransform rsqrt (batchStats text) text)
                      (pyOrQ tw Config.TEXT_WEIGHT)).zipWith (fun r1 r2 => r1 ++ r2)
                    (matScale (scalerTransform rsqrt (batchStats layout) layout)
                      (pyOrQ lw Config.LAYOUT_WEIGHT)),
                  some (batchStats layout))
            else .error .shapeMismatch
          else .error .invalidArray
        else .error .invalidArray
      else .error .invalidArray := by
  unfold combine_features fitTransform hstack scalerFit scalerIncFit scalerReset
  by_cases h1 : uniformB layout = true <;> simp [h1]
  by_cases h2 : validMatrix text = true <;> simp [h2]
  by_cases h3 : validMatrix layout = true <;> simp [h3]
  rw [length_matScale, length_matScale, length_scalerTransform, length_scalerTransform]
  by_cases h4 : text.length = layout.length <;> simp [h4]

theorem fuse_independent_char (rsqrt : ℚ → ℚ) (text layout : Mat)
    (tw lw : Option ℚ) :
    fuse_independent rsqrt text layout tw lw =
      if uniformB layout = true then
        if validMatrix text = true then
          if validMatrix layout = true then
            if text.length = layout.length then
              .ok ((matScale (scalerTransform rsqrt (batchStats text) text)
                      (pyOrQ tw Config.TEXT_WEIGHT)).zipWith (fun r1 r2 => r1 ++ r2)
                    (matScale (scalerTransform rsqrt (batchStats layout) layout)
                      (pyOrQ lw Config.LAYOUT_WEIGHT)))
            else .error .shapeMismatch
          else .error .invalidArray
        else .error .invalidArray
      else .error .invalidArray := by
  unfold fuse_independent hstack
  by_cases h1 : uniformB layout = true <;> simp [h1]
  by_cases h2 : validMatrix text = true <;> simp [h2]
  by_cases h3 : validMatrix layout = true <;> simp [h3]
  rw [length_matScale, length_matScale, length_scalerTransform, length_scalerTransform]

/-- Claim C10: whenever a falsy value is passed explicitly at the public
interface — `text_weight=0` or `layout_weight=0` to fusion, `n_clusters=0`
or the empty-string method to `cluster` — the configuration default is
silently used in place of the given value: the call behaves exactly like
the defaulted call, a zero weight becomes 0.7 / 0.3, a zero cluster count
becomes the default count 10, and the empty method string dispatches to the
default strategy `"dbscan"` instead of failing as unsupported. -/
theorem claim_C10 :
    (∀ rsqrt s text layout lw,
      combine_features rsqrt s text layout (some 0) lw =
        combine_features rsqrt s text layout none lw)
    ∧ (∀ rsqrt s text layout tw,
      combine_features rsqrt s text layout tw (some 0) =
        combine_features rsqrt s text layout tw none)
    ∧ (∀ rsqrt features n, cluster rsqrt features (some "") n = cluster rsqrt features none n)
    ∧ (∀ rsqrt features m, cluster rsqrt features m (some 0) = cluster rsqrt features m none)
    ∧ pyOrQ (some 0) Config.TEXT_WEIGHT = 7/10
    ∧ pyOrQ (some 0) Config.LAYOUT_WEIGHT = 3/10
    ∧ pyOrNat (some 0) Config.KMEANS_N_CLUSTERS = 10
    ∧ pyOrStr (some "") Config.CLUSTERING_METHOD = "dbscan" := by
  refine ⟨fun rsqrt s text layout lw => ?_, fun rsqrt s text layout tw => ?_,
    fun rsqrt features n => ?_, fun rsqrt features m => ?_, rfl, rfl, rfl, rfl⟩
  · simp [combine_features, pyOrQ]
  · simp [combine_features, pyOrQ]
  · simp [cluster, pyOrStr]
  · simp [cluster, pyOrNat]

/-- Counterexample to claim C4 as stated: the empty string is a method
string other than the two supported tags, yet `cluster` does not fail —
Python `or` replaces it with the default method and DBSCAN runs,
returning labels. -/
theorem claim_C4_cex :
    ("" ≠ "dbscan" ∧ "" ≠ "kmeans")
    ∧ (cluster (fun q => q) [[1], [1]] (some "") none).toOption = some [0, 0] := by
  exact ⟨by decide, by decide⟩

/-- Claim C4 (amended): for every non-empty method string other than the
two supported strategy tags, `cluster` fails with the unsupported-method
`ValueError` (the spec's `UnsupportedMethodError`) and returns no labels
for any input vector. -/
theorem claim_C4 (rsqrt : ℚ → ℚ) (features : Mat) (m : String) (n : Option Nat)
    (h0 : m ≠ "") (h1 : m ≠ "dbscan") (h2 : m ≠ "kmeans") :
    cluster rsqrt features (some m) n = .error (.unsupportedMethod m) := by
  simp [cluster, pyOrStr, h0, h1, h2]

/-- Witness for claim C4 at a concrete unsupported method string. -/
theorem claim_C4_witness :
    "ward" ≠ "" ∧
      cluster (fun q => q) [[1], [1]] (some "ward") none =
        .error (.unsupportedMethod "ward") :=
  ⟨by decide, claim_C4 (fun q => q) [[1], [1]] "ward" none (by decide) (by decide) (by decide)⟩

/-- Counterexample to claim C6 as stated: a negative text weight does not
make fusion fail — there is no weight validation in `combine_features`, so
the call succeeds. -/
theorem claim_C6_cex :
    ((-1 : ℚ) < 0)
    ∧ (combine_features (fun q => q) none [[1], [2]] [[1], [2]] (some (-1)) none).isOk
        = true := by
  exact ⟨by norm_num, by rfl⟩

/-- Claim C6 (amended): the default weights are the configuration
constants 0.7 (text) and 0.3 (layout), but the weights are never
validated: whether fusion succeeds is independent of the weight arguments,
and with well-formed inputs of equal row counts fusion succeeds for every
explicit weight pair, negative weights included, applying them as given. -/
theorem claim_C6 :
    (Config.TEXT_WEIGHT = 7/10 ∧ Config.LAYOUT_WEIGHT = 3/10)
    ∧ (∀ rsqrt s text layout tw lw tw2 lw2,
      (combine_features rsqrt s text layout tw lw).isOk =
        (combine_features rsqrt s text layout tw2 lw2).isOk)
    ∧ (∀ rsqrt s text layout (w v : ℚ),
      validMatrix text = true → validMatrix layout = true →
      text.length = layout.length →
      (combine_features rsqrt s text layout (some w) (some v)).isOk = true) := by
  refine ⟨⟨rfl, rfl⟩, fun rsqrt s text layout tw lw tw2 lw2 => ?_,
    fun rsqrt s text layout w v hT hL hlen => ?_⟩
  · rw [combine_features_char, combine_features_char]
    by_cases h1 : uniformB layout = true <;> simp [h1]
    by_cases h2 : validMatrix text = true <;> simp [h2]
    by_cases h3 : validMatrix layout = true <;> simp [h3]
    by_cases h4 : text.length = layout.length <;> simp [h4, Except.isOk, Except.toBool]
  · have h1 : uniformB layout = true := validMatrix_uniform layout hL
    rw [combine_features_char]
    simp [h1, hT, hL, hlen, Except.isOk, Except.toBool]

/-- Counterexample to claim C5 as stated: for the empty pair of matrices
the vector counts agree (0 = 0), yet fusion does not succeed — sklearn's
`StandardScaler.fit_transform` rejects an array with zero samples. -/
theorem claim_C5_cex :
    (([] : Mat).length = ([] : Mat).length)
    ∧ combine_features (fun q => q) none ([] : Mat) ([] : Mat) none none =
        .error .invalidArray := by
  exact ⟨rfl, by rfl⟩

/-- Claim C5 (amended): for non-empty well-formed input matrices (at least
one row, at least one column, rectangular), fusion fails with the
`np.hstack` shape `ValueError` (the spec's `DimensionMismatchError`)
whenever the number of text vectors differs from the number of layout
vectors, and succeeds with exactly one fused vector per document whenever
the counts agree. -/
theorem claim_C5 (rsqrt : ℚ → ℚ) (s : ScalerSt) (text layout : Mat)
    (tw lw : Option ℚ) (hT : validMatrix text = true) (hL : validMatrix layout = true) :
    (text.length ≠ layout.length →
      combine_features rsqrt s text layout tw lw = .error .shapeMismatch)
    ∧ (text.length = layout.length →
      ∃ M s2, combine_features rsqrt s text layout tw lw = .ok (M, s2)
        ∧ M.length = text.length) := by
  have h1 : uniformB layout = true := validMatrix_uniform layout hL
  rw [combine_features_char]
  constructor
  · intro hne
    simp [h1, hT, hL, hne]
  · intro heq
    refine ⟨(matScale (scalerTransform rsqrt (batchStats text) text)
        (pyOrQ tw Config.TEXT_WEIGHT)).zipWith (fun r1 r2 => r1 ++ r2)
          (matScale (scalerTransform rsqrt (batchStats layout) layout)
            (pyOrQ lw Config.LAYOUT_WEIGHT)),
      some (batchStats layout), by simp [h1, hT, hL, heq], ?_⟩
    rw [List.length_zipWith, length_matScale, length_matScale,
      length_scalerTransform, length_scalerTransform, heq, min_self]

/-- Witness for claim C5: two text vectors against one layout vector fail
with the shape mismatch, while two against two fuse into two vectors. -/
theorem claim_C5_witness :
    (validMatrix [[1], [2]] = true ∧ validMatrix [[3]] = true
      ∧ combine_features (fun q => q) none [[1], [2]] [[3]] none none =
          .error .shapeMismatch)
    ∧ (validMatrix [[4], [5]] = true
      ∧ ∃ M s2, combine_features (fun q => q) none [[1], [2]] [[4], [5]] none none =
          .ok (M, s2) ∧ M.length = 2) :=
  ⟨⟨by decide, by decide,
    (claim_C5 (fun q => q) none [[1], [2]] [[3]] none none (by decide) (by decide)).1
      (by decide)⟩,
   ⟨by decide,
    (claim_C5 (fun q => q) none [[1], [2]] [[4], [5]] none none (by decide) (by decide)).2
      (by decide)⟩⟩

/-- Claim C8: fusing with the single scaler object reused for the text
fit-transform and then the layout fit-transform yields exactly the same
fused matrix as two independent per-family batch standardizations — no
statistics leak from the first fit into the second, because every
`fit_transform` resets the scaler state before fitting.  The equality
holds for every starting scaler state, including one already holding
statistics from an earlier run. -/
theorem claim_C8 (rsqrt : ℚ → ℚ) (s : ScalerSt) (text layout : Mat)
    (tw lw : Option ℚ) :
    (combine_features rsqrt s text layout tw lw).map Prod.fst =
      fuse_independent rsqrt text layout tw lw := by
  rw [combine_features_char, fuse_independent_char]
  by_cases h1 : uniformB layout = true <;> simp [h1, Except.map]
  by_cases h2 : validMatrix text = true <;> simp [h2, Except.map]
  by_cases h3 : validMatrix layout = true <;> simp [h3, Except.map]
  by_cases h4 : text.length = layout.length <;> simp [h4, Except.map]

/-- Witness for claim C6: fusion succeeds on a well-formed batch even with
the explicit negative weights -1 and -2. -/
theorem claim_C6_witness :
    (combine_features (fun q => q) none [[1], [2]] [[1], [2]]
      (some (-1)) (some (-2))).isOk = true :=
  claim_C6.2.2 (fun q => q) none [[1], [2]] [[1], [2]] (-1) (-2)
    (by decide) (by decide) (by decide)

theorem length_compute_grid_density (gray : Gray) (rows cols : Nat) :
    (compute_grid_density gray rows cols).length = rows * cols := by
  simp [compute_grid_density, List.length_flatMap, Function.comp_def, List.map_const,
    List.sum_replicate, smul_eq_mul, Nat.mul_comm]

theorem detect_text_blocks_nil (h w : Nat) : detect_text_blocks [] h w = [] := by
  simp [detect_text_blocks]

/-- Claim C2: for every input image the layout vector has exactly 15
components, and when the contour detector finds no text regions — as on a
blank white image — the block-count component (index 0) is 0, the total
block area (index 1) is 0, the mean vertical centre (index 11) is 0.5 and
the standard deviation (index 12) is 0. -/
theorem claim_C2 (rsqrt : ℚ → ℚ) (angleOf : Segment → ℚ)
    (hough : Option (List Segment)) (gray : Gray) (contours : List Rect) (h w : Nat) :
    (extract_layout_features rsqrt angleOf hough gray
        (detect_text_blocks contours h w)).length = 15
    ∧ (contours = [] →
      (extract_layout_features rsqrt angleOf hough gray
          (detect_text_blocks contours h w)).take 2 = [some 0, some 0]
      ∧ ((extract_layout_features rsqrt angleOf hough gray
          (detect_text_blocks contours h w)).drop 11).take 2 = [some (1/2), some 0]) := by
  constructor
  · cases hB : detect_text_blocks contours h w with
    | nil => simp [extract_layout_features, length_compute_grid_density]
    | cons b rest => simp [extract_layout_features, length_compute_grid_density]
  · intro hc
    subst hc
    rw [detect_text_blocks_nil]
    constructor
    · simp [extract_layout_features]
    · show ((compute_grid_density gray 3 3 ++ [some ((1 : ℚ)/2), some (0 : ℚ)]
          ++ [some (detect_lines angleOf hough).1,
              some (detect_lines angleOf hough).2]).drop 9).take 2
        = [some ((1 : ℚ)/2), some (0 : ℚ)]
      rw [List.append_assoc,
        show (9 : Nat) = (compute_grid_density gray 3 3).length from
          (length_compute_grid_density gray 3 3).symm,
        List.drop_left]
      rfl

/-- Witness for claim C2 on a concrete blank white 3×3 image whose contour
list is empty. -/
theorem claim_C2_witness :
    (extract_layout_features (fun q => q) (fun _ => 0) none
        [[255, 255, 255], [255, 255, 255], [255, 255, 255]]
        (detect_text_blocks [] 3 3)).length = 15
    ∧ (extract_layout_features (fun q => q) (fun _ => 0) none
        [[255, 255, 255], [255, 255, 255], [255, 255, 255]]
        (detect_text_blocks [] 3 3)).take 2 = [some 0, some 0]
    ∧ ((extract_layout_features (fun q => q) (fun _ => 0) none
        [[255, 255, 255], [255, 255, 255], [255, 255, 255]]
        (detect_text_blocks [] 3 3)).drop 11).take 2 = [some (1/2), some 0] :=
  ⟨(claim_C2 (fun q => q) (fun _ => 0) none
      [[255, 255, 255], [255, 255, 255], [255, 255, 255]] [] 3 3).1,
   ((claim_C2 (fun q => q) (fun _ => 0) none
      [[255, 255, 255], [255, 255, 255], [255, 255, 255]] [] 3 3).2 rfl).1,
   ((claim_C2 (fun q => q) (fun _ => 0) none
      [[255, 255, 255], [255, 255, 255], [255, 255, 255]] [] 3 3).2 rfl).2⟩

theorem layout_grid_slice (rsqrt : ℚ → ℚ) (angleOf : Segment → ℚ)
    (hough : Option (List Segment)) (gray : Gray) (blocks : List Block) :
    ((extract_layout_features rsqrt angleOf hough gray blocks).drop 2).take 9 =
      compute_grid_density gray 3 3 := by
  have h9 := (length_compute_grid_density gray 3 3).symm
  cases blocks with
  | nil =>
    simp only [extract_layout_features, List.drop_succ_cons, List.drop_zero]
    rw [List.append_assoc, show (9 : Nat) = (compute_grid_density gray 3 3).length from h9,
      List.take_left]
  | cons b rest =>
    simp only [extract_layout_features, List.drop_succ_cons, List.drop_zero]
    rw [List.append_assoc, show (9 : Nat) = (compute_grid_density gray 3 3).length from h9,
      List.take_left]

theorem layout_lines_slice (rsqrt : ℚ → ℚ) (angleOf : Segment → ℚ)
    (hough : Option (List Segment)) (gray : Gray) (blocks : List Block) :
    (extract_layout_features rsqrt angleOf hough gray blocks).drop 13 =
      [some (detect_lines angleOf hough).1, some (detect_lines angleOf hough).2] := by
  have h9 := (length_compute_grid_density gray 3 3).symm
  cases blocks with
  | nil =>
    simp only [extract_layout_features, List.drop_succ_cons, List.drop_zero]
    rw [List.append_assoc, show (11 : Nat) = 9 + 2 from rfl, ← List.drop_drop,
      show (9 : Nat) = (compute_grid_density gray 3 3).length from h9, List.drop_left]
    rfl
  | cons b rest =>
    simp only [extract_layout_features, List.drop_succ_cons, List.drop_zero]
    rw [List.append_assoc, show (11 : Nat) = 9 + 2 from rfl, ← List.drop_drop,
      show (9 : Nat) = (compute_grid_density gray 3 3).length from h9, List.drop_left]
    rfl

theorem detect_lines_unit (angleOf : Segment → ℚ) (hough : Option (List Segment)) :
    isUnitOpt (some (detect_lines angleOf hough).1) = true
    ∧ isUnitOpt (some (detect_lines angleOf hough).2) = true := by
  unfold detect_lines
  constructor <;>
    simp only [isUnitOpt, Bool.and_eq_true, decide_eq_true_eq] <;>
    exact ⟨le_min (by positivity) (by norm_num), min_le_right _ _⟩

theorem grid_density_unit (gray : Gray) (w : Nat) (hh : 3 ≤ gray.length)
    (hw : 3 ≤ w) (hrow : ∀ row ∈ gray, row.length = w) :
    ∀ x ∈ compute_grid_density gray 3 3, isUnitOpt x = true := by
  intro x hx
  have hwhead : (gray.headD []).length = w := by
    cases gray with
    | nil => simp at hh
    | cons g rest => exact hrow g (by simp)
  unfold compute_grid_density at hx
  rw [hwhead] at hx
  simp only [List.mem_flatMap, List.mem_map, List.mem_range] at hx
  obtain ⟨i, hi, j, hj, hxe⟩ := hx
  set cellH := gray.length / 3 with hcellH
  set cellW := w / 3 with hcellW
  have hch : 1 ≤ cellH := (Nat.one_le_div_iff (by norm_num)).2 hh
  have hcw : 1 ≤ cellW := (Nat.one_le_div_iff (by norm_num)).2 hw
  have hih : (i + 1) * cellH ≤ gray.length := by
    calc (i + 1) * cellH ≤ 3 * cellH := Nat.mul_le_mul_right _ hi
    _ ≤ gray.length := by rw [hcellH, Nat.mul_comm]; exact Nat.div_mul_le_self _ _
  have hjw : (j + 1) * cellW ≤ w := by
    calc (j + 1) * cellW ≤ 3 * cellW := Nat.mul_le_mul_right _ hj
    _ ≤ w := by rw [hcellW, Nat.mul_comm]; exact Nat.div_mul_le_self _ _
  set cell := cellSlice gray (i * cellH) ((i + 1) * cellH) (j * cellW) ((j + 1) * cellW)
    with hcell
  have hcl : cell.length = cellH := by
    rw [hcell, cellSlice]
    simp only [List.length_map, List.length_take, List.length_drop]
    have : (i + 1) * cellH - i * cellH = cellH := by
      rw [Nat.succ_mul]; omega
    rw [this]
    omega
  have hrowlen : ∀ r ∈ cell, r.length = cellW := by
    intro r hr
    rw [hcell, cellSlice] at hr
    simp only [List.mem_map] at hr
    obtain ⟨row, hrowm, hre⟩ := hr
    have hrg : row ∈ gray := List.mem_of_mem_drop (List.mem_of_mem_take hrowm)
    have hwr : row.length = w := hrow row hrg
    rw [← hre]
    simp only [List.length_take, List.length_drop, hwr]
    have : (j + 1) * cellW - j * cellW = cellW := by
      rw [Nat.succ_mul]; omega
    rw [this]
    omega
  have hsize : (cell.map List.length).sum = cellH * cellW := by
    have hmap : cell.map List.length = List.replicate cellH cellW := by
      rw [List.eq_replicate_iff]
      refine ⟨by rw [List.length_map, hcl], ?_⟩
      intro b hb
      obtain ⟨r, hr, hrb⟩ := List.mem_map.1 hb
      rw [← hrb]; exact hrowlen r hr
    rw [hmap, List.sum_replicate, smul_eq_mul]
  have hszpos : 0 < (cell.map List.length).sum := by
    rw [hsize]; exact Nat.mul_pos hch hcw
  have hdark : (cell.map (fun row => (row.filter (fun p => p < 128)).length)).sum
      ≤ (cell.map List.length).sum :=
    List.sum_le_sum (fun r _ => List.length_filter_le _ r)
  rw [← hxe]
  have hne : ¬ ((cell.map List.length).sum = 0) := Nat.pos_iff_ne_zero.1 hszpos
  simp only [hne, if_false, isUnitOpt, Bool.and_eq_true, decide_eq_true_eq]
  constructor
  · positivity
  · rw [div_le_one (by exact_mod_cast hszpos)]
    exact_mod_cast hdark

/-- Counterexample to claim C7 as stated: on a 2×2 white image the grid
cells of the 3×3 partition are empty (`2 // 3 = 0`), numpy's `0 / 0` float
division yields NaN, and the layout vector's grid-density components are
NaN — not in `[0, 1]`. -/
theorem claim_C7_cex :
    ¬ (∀ x ∈ ((extract_layout_features (fun q => q) (fun _ => 0) none
        [[255, 255], [255, 255]] []).drop 2).take 9, isUnitOpt x = true) := by
  decide

/-- Claim C7 (amended): for every input image of height and width at least
3 pixels (so no 3×3 grid cell is empty), each of the 9 grid-density
components (indices 2-10 of the layout vector) and each of the 2
normalized line-count components (indices 13-14) lies in the closed
interval `[0, 1]`. -/
theorem claim_C7 (rsqrt : ℚ → ℚ) (angleOf : Segment → ℚ)
    (hough : Option (List Segment)) (gray : Gray) (blocks : List Block) (w : Nat)
    (hh : 3 ≤ gray.length) (hw : 3 ≤ w) (hrow : ∀ row ∈ gray, row.length = w) :
    (∀ x ∈ ((extract_layout_features rsqrt angleOf hough gray blocks).drop 2).take 9,
      isUnitOpt x = true)
    ∧ (∀ x ∈ (extract_layout_features rsqrt angleOf hough gray blocks).drop 13,
      isUnitOpt x = true) := by
  constructor
  · rw [layout_grid_slice]
    exact grid_density_unit gray w hh hw hrow
  · rw [layout_lines_slice]
    intro x hx
    simp only [List.mem_cons, List.not_mem_nil, or_false] at hx
    rcases hx with rfl | rfl
    · exact (detect_lines_unit angleOf hough).1
    · exact (detect_lines_unit angleOf hough).2

/-- Witness for claim C7 on a concrete 3×3 image. -/
theorem claim_C7_witness :
    (∀ x ∈ ((extract_layout_features (fun q => q) (fun _ => 0) none
        [[255, 0, 255], [0, 255, 0], [255, 0, 255]] []).drop 2).take 9,
      isUnitOpt x = true)
    ∧ (∀ x ∈ (extract_layout_features (fun q => q) (fun _ => 0) none
        [[255, 0, 255], [0, 255, 0], [255, 0, 255]] []).drop 13,
      isUnitOpt x = true) :=
  claim_C7 (fun q => q) (fun _ => 0) none
    [[255, 0, 255], [0, 255, 0], [255, 0, 255]] [] 3
    (by decide) (by decide) (by decide)

theorem lookup_addToSummary (s : List (Int × List String)) (c0 : Int) (d : String)
    (c : Int) :
    lookupS c (addToSummary s c0 d) =
      if c0 = c then some ((lookupS c s).getD [] ++ [d]) else lookupS c s := by
  induction s with
  | nil =>
    by_cases h : c0 = c <;> simp [addToSummary, lookupS, h]
  | cons e rest ih =>
    obtain ⟨ck, l⟩ := e
    simp only [addToSummary]
    by_cases hk : ck = c0
    · subst hk
      simp only [if_pos rfl, lookupS]
      by_cases h : ck = c <;> simp [h, lookupS]
    · simp only [if_neg hk, lookupS]
      by_cases h : ck = c
      · have hc0 : ¬ c0 = c := fun hc => hk (h.trans hc.symm)
        simp [h, hc0]
      · simp [h, ih]

theorem summary_fold_some (rs : List ClusterResult) :
    ∀ (acc : List (Int × List String)) (c : Int) (l : List String),
    lookupS c acc = some l →
    lookupS c (rs.foldl (fun s r => addToSummary s r.cluster_id r.pdf_path) acc) =
      some (l ++ (rs.filter (fun r => r.cluster_id = c)).map (fun r => r.pdf_path)) := by
  induction rs with
  | nil => intro acc c l h; simpa using h
  | cons r rest ih =>
    intro acc c l h
    simp only [List.foldl_cons]
    by_cases hrc : r.cluster_id = c
    · have h2 : lookupS c (addToSummary acc r.cluster_id r.pdf_path) =
          some (l ++ [r.pdf_path]) := by
        rw [lookup_addToSummary, if_pos hrc, h]
        rfl
      rw [ih _ _ _ h2]
      simp [List.filter_cons, hrc]
    · have h2 : lookupS c (addToSummary acc r.cluster_id r.pdf_path) = some l := by
        rw [lookup_addToSummary, if_neg hrc, h]
      rw [ih _ _ _ h2]
      simp [List.filter_cons, hrc]

theorem summary_fold_none (rs : List ClusterResult) :
    ∀ (acc : List (Int × List String)) (c : Int),
    lookupS c acc = none →
    lookupS c (rs.foldl (fun s r => addToSummary s r.cluster_id r.pdf_path) acc) =
      if (rs.filter (fun r => r.cluster_id = c)) = [] then none
      else some ((rs.filter (fun r => r.cluster_id = c)).map (fun r => r.pdf_path)) := by
  induction rs with
  | nil => intro acc c h; simpa using h
  | cons r rest ih =>
    intro acc c h
    simp only [List.foldl_cons]
    by_cases hrc : r.cluster_id = c
    · have h2 : lookupS c (addToSummary acc r.cluster_id r.pdf_path) =
          some [r.pdf_path] := by
        rw [lookup_addToSummary, if_pos hrc, h]
        rfl
      rw [summary_fold_some rest _ _ _ h2]
      simp [List.filter_cons, hrc]
    · have h2 : lookupS c (addToSummary acc r.cluster_id r.pdf_path) = none := by
        rw [lookup_addToSummary, if_neg hrc, h]
      rw [ih _ _ h2]
      simp [List.filter_cons, hrc]

theorem count_allDocs_addToSummary (s : List (Int × List String)) (c : Int)
    (d x : String) :
    List.count x (allDocs (addToSummary s c d)) =
      List.count x (allDocs s) + (if d = x then 1 else 0) := by
  induction s with
  | nil =>
    by_cases h : d = x <;>
      simp [addToSummary, allDocs, List.count_cons, List.count_nil, h]
  | cons e rest ih =>
    obtain ⟨ck, l⟩ := e
    by_cases hk : ck = c
    · subst hk
      by_cases h : d = x <;>
        simp [addToSummary, allDocs, List.count_append, List.count_cons, h] <;>
        omega
    · simp [addToSummary, hk, allDocs, List.count_append] at ih ⊢
      omega

theorem count_allDocs_fold (rs : List ClusterResult) :
    ∀ (acc : List (Int × List String)) (x : String),
    List.count x (allDocs (rs.foldl (fun s r => addToSummary s r.cluster_id r.pdf_path) acc)) =
      List.count x (allDocs acc) + List.count x (rs.map (fun r => r.pdf_path)) := by
  induction rs with
  | nil => intro acc x; simp
  | cons r rest ih =>
    intro acc x
    simp only [List.foldl_cons, List.map_cons]
    rw [ih, count_allDocs_addToSummary, List.count_cons]
    by_cases h : r.pdf_path = x <;> simp [h] <;> omega

/-- Claim C9: `get_cluster_summary` groups the documents exactly by their
cluster id.  First conjunct: a cluster id's group is precisely the
`pdf_path`s of the results carrying that id, in input (first-seen) order —
and ids that occur in no result have no group.  Second conjunct: across
all groups together every document id occurs exactly as often as in the
input, so nothing is omitted or duplicated.  Third conjunct: with distinct
input ids, each id appears exactly once across all groups. -/
theorem claim_C9 (results : List ClusterResult) :
    (∀ c, lookupS c (get_cluster_summary results) =
      if (results.filter (fun r => r.cluster_id = c)) = [] then none
      else some ((results.filter (fun r => r.cluster_id = c)).map (fun r => r.pdf_path)))
    ∧ (∀ d, List.count d (allDocs (get_cluster_summary results)) =
      List.count d (results.map (fun r => r.pdf_path)))
    ∧ ((results.map (fun r => r.pdf_path)).Nodup →
      ∀ r ∈ results, List.count r.pdf_path (allDocs (get_cluster_summary results)) = 1) := by
  refine ⟨fun c => ?_, fun d => ?_, fun hnd r hr => ?_⟩
  · exact summary_fold_none results [] c rfl
  · rw [get_cluster_summary, count_allDocs_fold]
    simp [allDocs]
  · rw [get_cluster_summary, count_allDocs_fold]
    simp only [allDocs, List.foldr_nil, List.count_nil, Nat.zero_add]
    exact List.count_eq_one_of_mem hnd (List.mem_map_of_mem _ hr)

/-- Witness for claim C9 on a concrete result list with distinct ids. -/
theorem claim_C9_witness :
    List.count "a" (allDocs (get_cluster_summary
      [⟨"a", 1, []⟩, ⟨"b", 0, []⟩, ⟨"c", 1, []⟩])) = 1 :=
  (claim_C9 [⟨"a", 1, []⟩, ⟨"b", 0, []⟩, ⟨"c", 1, []⟩]).2.2 (by decide)
    ⟨"a", 1, []⟩ (by decide)

theorem length_dbExpand (rsqrt : ℚ → ℚ) (eps : ℚ) (minSamples : Nat) (pts : Mat)
    (c : Int) :
    ∀ fuel labels queue,
    (dbExpand rsqrt eps minSamples pts c fuel labels queue).length = labels.length := by
  intro fuel
  induction fuel with
  | zero => intro labels queue; rfl
  | succ f ih =>
    intro labels queue
    cases queue with
    | nil => rfl
    | cons j rest =>
      simp only [dbExpand, List.getD_eq_getElem?_getD]
      by_cases h1 : labels[j]?.getD (-2) = -1
      · simp [h1, ih, List.length_set]
      · by_cases h2 : labels[j]?.getD (-2) = -2
        · by_cases h3 : dbIsCore rsqrt eps minSamples pts j = true <;>
            simp [h1, h2, h3, ih, List.length_set]
        · simp [h1, h2, ih]

theorem length_dbScanLoop (rsqrt : ℚ → ℚ) (eps : ℚ) (minSamples : Nat) (pts : Mat) :
    ∀ idxs labels c,
    (dbScanLoop rsqrt eps minSamples pts idxs labels c).length = labels.length := by
  intro idxs
  induction idxs with
  | nil => intro labels c; rfl
  | cons i rest ih =>
    intro labels c
    simp only [dbScanLoop, List.getD_eq_getElem?_getD]
    by_cases h1 : labels[i]?.getD (-2) = -2
    · by_cases h2 : dbIsCore rsqrt eps minSamples pts i = true <;>
        simp [h1, h2, ih, length_dbExpand, List.length_set]
    · simp [h1, ih]

theorem length_dbscanFitPredict (rsqrt : ℚ → ℚ) (eps : ℚ) (minSamples : Nat)
    (pts : Mat) : (dbscanFitPredict rsqrt eps minSamples pts).length = pts.length := by
  rw [dbscanFitPredict, length_dbScanLoop, List.length_replicate]

theorem length_relocateEmpties :
    ∀ (es labels : List Nat) (dists : List ℚ),
    (relocateEmpties es labels dists).length = labels.length := by
  intro es
  induction es with
  | nil => intro labels dists; rfl
  | cons c rest ih =>
    intro labels dists
    simp only [relocateEmpties]
    cases h : stealIdx labels dists with
    | none => simp [ih]
    | some i => simp [ih, List.length_set]

theorem length_kmRelocate (k : Nat) (labels : List Nat) (dists : List ℚ) :
    (kmRelocate k labels dists).length = labels.length := by
  rw [kmRelocate, length_relocateEmpties]

theorem length_kmeansFitPredict (k : Nat) (pts : Mat) (hk : k ≠ 0) (hp : pts ≠ []) :
    (kmeansFitPredict k pts).length = pts.length := by
  cases pts with
  | nil => exact absurd rfl hp
  | cons p rest =>
    simp only [kmeansFitPredict, hk, if_false]
    rw [List.length_map, length_kmRelocate, kmAssign, List.length_map]

theorem pyOrNat_pos (x : Option Nat) (d : Nat) (hd : 0 < d) : 0 < pyOrNat x d := by
  cases x with
  | none => exact hd
  | some v =>
    by_cases h : v = 0
    · simpa [pyOrNat, h] using hd
    · simpa [pyOrNat, h] using Nat.pos_of_ne_zero h

theorem cluster_ok (rsqrt : ℚ → ℚ) (features : Mat) (method : Option String)
    (nc : Option Nat) (hne : features ≠ [])
    (hm : pyOrStr method Config.CLUSTERING_METHOD = "dbscan"
        ∨ pyOrStr method Config.CLUSTERING_METHOD = "kmeans") :
    ∃ labels, cluster rsqrt features method nc = .ok labels
      ∧ labels.length = features.length := by
  have hempty : features.isEmpty = false := by
    cases features with
    | nil => exact absurd rfl hne
    | cons p rest => rfl
  rcases hm with hm | hm
  · refine ⟨dbscanFitPredict rsqrt Config.DBSCAN_EPS Config.DBSCAN_MIN_SAMPLES features,
      ?_, length_dbscanFitPredict _ _ _ _⟩
    simp [cluster, hm, hempty]
  · have hkpos : 0 < min (pyOrNat nc Config.KMEANS_N_CLUSTERS) features.length := by
      refine lt_min (pyOrNat_pos _ _ (by decide)) ?_
      cases features with
      | nil => exact absurd rfl hne
      | cons p rest => simp
    refine ⟨kmeansFitPredict
        (min (pyOrNat nc Config.KMEANS_N_CLUSTERS) features.length) features, ?_, ?_⟩
    · simp [cluster, hm, hempty]
    · exact length_kmeansFitPredict _ _ (Nat.pos_iff_ne_zero.1 hkpos) hne

theorem validMatrix_of (X : Mat) (D : Nat) (hne : X ≠ []) (hD : D ≠ 0)
    (hrows : ∀ r ∈ X, r.length = D) : validMatrix X = true := by
  cases X with
  | nil => exact absurd rfl hne
  | cons r rest =>
    have hr : r.length = D := hrows r (by simp)
    simp only [validMatrix, Bool.and_eq_true, decide_eq_true_eq, List.all_eq_true]
    exact ⟨by rw [hr]; exact hD,
      fun row hrow => by rw [hrows row (List.mem_cons_of_mem _ hrow), hr]⟩

/-- Claim C1: `process` on the empty batch returns the empty result list
without error (for any method and cluster-count arguments and any scaler
state), and on every non-empty batch of well-formed `DocumentFeatures`
(uniform non-zero embedding and layout dimensions, a supported resolved
clustering method) it returns exactly one `ClusterResult` per input record,
with the i-th result's document id equal to the i-th input's id. -/
theorem claim_C1 (encode : String → Vec) (rsqrt : ℚ → ℚ) (s : ScalerSt)
    (dfs : List DocumentFeatures) (method : Option String) (nc : Option Nat)
    (D L : Nat) (hD : D ≠ 0) (hE : ∀ t, (encode t).length = D)
    (hL : L ≠ 0) (hlay : ∀ df ∈ dfs, df.layout_features.length = L)
    (hm : pyOrStr method Config.CLUSTERING_METHOD = "dbscan"
        ∨ pyOrStr method Config.CLUSTERING_METHOD = "kmeans") :
    (∀ (m2 : Option String) (n2 : Option Nat) (s0 : ScalerSt),
      process encode rsqrt s0 [] m2 n2 = .ok ([], s0))
    ∧ (dfs ≠ [] → ∃ rs s2,
      process encode rsqrt s dfs method nc = .ok (rs, s2)
      ∧ rs.length = dfs.length
      ∧ rs.map (fun r => r.pdf_path) = dfs.map (fun df => df.pdf_path)) := by
  constructor
  · intro m2 n2 s0; rfl
  · intro hne
    have hie : dfs.isEmpty = false := by
      cases dfs with
      | nil => exact absurd rfl hne
      | cons df rest => rfl
    set emb := compute_text_embeddings encode (dfs.map (fun df => df.text)) with hemb
    set layoutM := dfs.map (fun df => df.layout_features) with hlayM
    have hlenemb : emb.length = dfs.length := by
      rw [hemb, compute_text_embeddings, List.length_map, List.length_map, List.length_map]
    have hlenlay : layoutM.length = dfs.length := by rw [hlayM, List.length_map]
    have hembne : emb ≠ [] := by
      intro h
      rw [h, List.length_nil] at hlenemb
      exact hne (List.length_eq_zero.1 hlenemb.symm)
    have hlayne : layoutM ≠ [] := by
      intro h
      rw [h, List.length_nil] at hlenlay
      exact hne (List.length_eq_zero.1 hlenlay.symm)
    have hvalidT : validMatrix emb = true := by
      refine validMatrix_of emb D hembne hD ?_
      intro r hr
      rw [hemb, compute_text_embeddings] at hr
      obtain ⟨t, _, rfl⟩ := List.mem_map.1 hr
      exact hE t
    have hvalidL : validMatrix layoutM = true := by
      refine validMatrix_of layoutM L hlayne hL ?_
      intro r hr
      obtain ⟨df, hdf, rfl⟩ := List.mem_map.1 hr
      exact hlay df hdf
    set C := (matScale (scalerTransform rsqrt (batchStats emb) emb)
        (pyOrQ none Config.TEXT_WEIGHT)).zipWith (fun r1 r2 => r1 ++ r2)
      (matScale (scalerTransform rsqrt (batchStats layoutM) layoutM)
        (pyOrQ none Config.LAYOUT_WEIGHT)) with hC
    have hcomb : combine_features rsqrt s emb layoutM none none =
        .ok (C, some (batchStats layoutM)) := by
      rw [combine_features_char]
      simp [validMatrix_uniform layoutM hvalidL, hvalidT, hvalidL, hlenemb, hlenlay, hC]
    have hClen : C.length = dfs.length := by
      rw [hC, List.length_zipWith, length_matScale, length_matScale,
        length_scalerTransform, length_scalerTransform, hlenemb, hlenlay, min_self]
    have hCne : C ≠ [] := by
      intro h
      rw [h, List.length_nil] at hClen
      exact hne (List.length_eq_zero.1 hClen.symm)
    obtain ⟨labels, hcl, hllen⟩ := cluster_ok rsqrt C method nc hCne hm
    refine ⟨(dfs.zip (labels.zip C)).map
        (fun dlv => ⟨dlv.1.pdf_path, dlv.2.1, dlv.2.2⟩),
      some (batchStats layoutM), ?_, ?_, ?_⟩
    · simp only [process, hie, Bool.false_eq_true, if_false]
      rw [← hemb, ← hlayM]
      simp only [hcomb, hcl]
    · rw [List.length_map, List.length_zip, List.length_zip, hllen, hClen, min_self,
        min_self]
    · rw [List.map_map]
      have hZ : dfs.length ≤ (labels.zip C).length := by
        rw [List.length_zip, hllen, hClen, min_self]
      calc (dfs.zip (labels.zip C)).map
            ((fun r => r.pdf_path) ∘ (fun dlv => ClusterResult.mk dlv.1.pdf_path dlv.2.1 dlv.2.2))
          = (dfs.zip (labels.zip C)).map
            ((fun df : DocumentFeatures => df.pdf_path) ∘ Prod.fst) := rfl
        _ = ((dfs.zip (labels.zip C)).map Prod.fst).map (fun df => df.pdf_path) := by
            rw [List.map_map]
        _ = dfs.map (fun df => df.pdf_path) := by rw [List.map_fst_zip _ _ hZ]

/-- Witness for claim C1 on a concrete two-document batch with the default
method and cluster count. -/
theorem claim_C1_witness :
    ∃ rs s2,
      process (fun _ => [1]) (fun q => q) none
        [⟨"a", "t", [1], []⟩, ⟨"b", "u", [1], []⟩] none none = .ok (rs, s2)
      ∧ rs.length = 2
      ∧ rs.map (fun r => r.pdf_path) = ["a", "b"] :=
  (claim_C1 (fun _ => [1]) (fun q => q) none
      [⟨"a", "t", [1], []⟩, ⟨"b", "u", [1], []⟩] none none 1 1
      (by decide) (fun t => rfl) (by decide) (by decide) (Or.inl rfl)).2
    (by decide)

theorem nearestAux_lt (p : Vec) :
    ∀ (rest : List Vec) (i : Nat) (best : Nat × ℚ), best.1 < i →
    (nearestAux p rest i best).1 < i + rest.length := by
  intro rest
  induction rest with
  | nil => intro i best h; simpa using h
  | cons c r ih =>
    intro i best h
    simp only [nearestAux]
    have hb : (if sqDist c p < best.2 then (i, sqDist c p) else best).1 < i + 1 := by
      by_cases hd : sqDist c p < best.2
      · simp [hd]
      · simp [hd]; omega
    have := ih (i + 1) _ hb
    simpa [Nat.add_assoc, Nat.add_comm 1 r.length] using this

theorem nearest_lt (cs : List Vec) (p : Vec) (h : cs ≠ []) :
    nearest cs p < cs.length := by
  cases cs with
  | nil => exact absurd rfl h
  | cons c rest =>
    have := nearestAux_lt p rest 1 (0, sqDist c p) (by norm_num)
    simpa [nearest, Nat.add_comm] using this

theorem kmAssign_lt (cs : List Vec) (pts : Mat) (h : cs ≠ []) :
    ∀ l ∈ kmAssign cs pts, l < cs.length := by
  intro l hl
  obtain ⟨p, _, rfl⟩ := List.mem_map.1 hl
  exact nearest_lt cs p h

theorem length_initGo (pts : Mat) :
    ∀ (n : Nat) (cs : List Vec), (initGo pts n cs).length = cs.length + n := by
  intro n
  induction n with
  | zero => intro cs; simp [initGo]
  | succ m ih =>
    intro cs
    simp only [initGo]
    rw [ih]
    simp
    omega

theorem length_kmeansInit (k : Nat) (pts : Mat) (hk : k ≠ 0) (hp : pts ≠ []) :
    (kmeansInit k pts).length = k := by
  cases k with
  | zero => exact absurd rfl hk
  | succ m =>
    cases pts with
    | nil => exact absurd rfl hp
    | cons p rest =>
      simp only [kmeansInit]
      rw [length_initGo]
      simp [Nat.add_comm]

theorem length_updateCenters (pts : Mat) (labels : List Nat) (cs : List Vec) :
    (updateCenters pts labels cs).length = cs.length := by
  simp [updateCenters]

theorem length_lloydLoop (pts : Mat) :
    ∀ (fuel : Nat) (cs : List Vec), (lloydLoop pts fuel cs).length = cs.length := by
  intro fuel
  induction fuel with
  | zero => intro cs; rfl
  | succ f ih =>
    intro cs
    simp only [lloydLoop]
    by_cases h : updateCenters pts
        (kmRelocate cs.length (kmAssign cs pts) (kmAssignDists cs pts)) cs = cs
    · simp [h]
    · rw [if_neg h, ih, length_updateCenters]

theorem mem_stealCandidates (labels : List Nat) (i : Nat) :
    i ∈ stealCandidates labels ↔
      i < labels.length ∧ 2 ≤ labels.count (labels.getD i 0) := by
  simp [stealCandidates]

theorem argmaxBy_some_of_ne_nil (f : Nat → ℚ) :
    ∀ (l : List Nat), l ≠ [] → ∃ i, argmaxBy f l = some i ∧ i ∈ l := by
  intro l
  induction l with
  | nil => intro h; exact absurd rfl h
  | cons x r ih =>
    intro _
    cases hr : argmaxBy f r with
    | none => exact ⟨x, by simp [argmaxBy, hr], by simp⟩
    | some j =>
      have hj : j ∈ r := by
        rcases r with _ | ⟨y, r2⟩
        · simp [argmaxBy] at hr
        · obtain ⟨i2, hi2, hmem⟩ := ih (by simp)
          rw [hr] at hi2
          injection hi2 with h2
          subst h2
          exact hmem
      by_cases hc : f x < f j
      · exact ⟨j, by simp [argmaxBy, hr, hc], by simp [hj]⟩
      · exact ⟨x, by simp [argmaxBy, hr, hc], by simp⟩

theorem count_le_count_set_succ :
    ∀ (l : List Nat) (i : Nat) (b a : Nat),
    l.count a ≤ (l.set i b).count a + 1 := by
  intro l
  induction l with
  | nil => intro i b a; simp
  | cons hd tl ih =>
    intro i b a
    cases i with
    | zero =>
      simp only [List.set_cons_zero, List.count_cons]
      by_cases h1 : hd = a <;> by_cases h2 : b = a <;> simp [h1, h2] <;> omega
    | succ m =>
      simp only [List.set_cons_succ, List.count_cons]
      have := ih m b a
      by_cases h1 : hd = a <;> simp [h1] <;> omega

theorem count_le_count_set_of_ne :
    ∀ (l : List Nat) (i : Nat) (b a : Nat), a ≠ l.getD i 0 →
    l.count a ≤ (l.set i b).count a := by
  intro l
  induction l with
  | nil => intro i b a _; simp
  | cons hd tl ih =>
    intro i b a hne
    cases i with
    | zero =>
      simp only [List.getD_cons_zero] at hne
      simp only [List.set_cons_zero, List.count_cons]
      have : ¬ (hd = a) := fun h => hne h.symm
      by_cases h2 : b = a <;> simp [this, h2] <;> omega
    | succ m =>
      simp only [List.getD_cons_succ] at hne
      simp only [List.set_cons_succ, List.count_cons]
      have := ih m b a hne
      by_cases h1 : hd = a <;> simp [h1] <;> omega

theorem mem_set_of_countable (labels : List Nat) (i : Nat) (b : Nat)
    (hcnt : 2 ≤ labels.count (labels.getD i 0)) :
    ∀ a ∈ labels, a ∈ labels.set i b := by
  intro a ha
  by_cases hg : a = labels.getD i 0
  · subst hg
    have h1 := count_le_count_set_succ labels i b (labels.getD i 0)
    have : 1 ≤ (labels.set i b).count (labels.getD i 0) := by omega
    exact List.count_pos_iff.1 (by omega)
  · have h1 := count_le_count_set_of_ne labels i b a hg
    have h2 : 0 < labels.count a := List.count_pos_iff.2 ha
    exact List.count_pos_iff.1 (by omega)

theorem self_mem_set (labels : List Nat) (i : Nat) (b : Nat)
    (hi : i < labels.length) : b ∈ labels.set i b := by
  have hlen : i < (labels.set i b).length := by rwa [List.length_set]
  exact List.mem_iff_getElem.2 ⟨i, hlen, List.getElem_set_self hlen⟩

theorem stealCandidates_ne_nil (labels : List Nat) (k c : Nat)
    (hlen : k ≤ labels.length) (hbound : ∀ l ∈ labels, l < k)
    (hc : c < k) (hnotin : c ∉ labels) : stealCandidates labels ≠ [] := by
  intro hempty
  have hcnt : ∀ a, labels.count a ≤ 1 := by
    intro a
    by_cases ha : a ∈ labels
    · obtain ⟨i, hi, hget⟩ := List.getElem_of_mem ha
      have hmem : i ∉ stealCandidates labels := by rw [hempty]; exact List.not_mem_nil i
      rw [mem_stealCandidates] at hmem
      push_neg at hmem
      have := hmem hi
      have hgd : labels.getD i 0 = a := by
        rw [List.getD_eq_getElem?_getD, List.getElem?_eq_getElem hi, hget]
        rfl
      rw [hgd] at this
      omega
    · rw [List.count_eq_zero.2 ha]
      norm_num
  have hnd : labels.Nodup := List.nodup_iff_count_le_one.2 hcnt
  have hcard : labels.toFinset.card = labels.length := List.toFinset_card_of_nodup hnd
  have hsub : labels.toFinset ⊆ Finset.range k := by
    intro a ha
    exact Finset.mem_range.2 (hbound a (List.mem_toFinset.1 ha))
  have heq : labels.toFinset = Finset.range k := by
    apply Finset.eq_of_subset_of_card_le hsub
    rw [hcard, Finset.card_range]
    exact hlen
  have : c ∈ labels.toFinset := by rw [heq]; exact Finset.mem_range.2 hc
  exact hnotin (List.mem_toFinset.1 this)

theorem relocateEmpties_main (k : Nat) :
    ∀ (es labels : List Nat) (dists : List ℚ),
    k ≤ labels.length → (∀ l ∈ labels, l < k) →
    (∀ c ∈ es, c < k) → es.Nodup → (∀ c ∈ es, c ∉ labels) →
    (∀ a, (a ∈ labels ∨ a ∈ es) → a ∈ relocateEmpties es labels dists)
    ∧ (∀ l ∈ relocateEmpties es labels dists, l < k) := by
  intro es
  induction es with
  | nil =>
    intro labels dists _ hbound _ _ _
    exact ⟨fun a h => by simpa [relocateEmpties] using h.resolve_right (by simp),
      by simpa [relocateEmpties] using hbound⟩
  | cons c rest ih =>
    intro labels dists hlen hbound hesk hnd hdis
    have hck : c < k := hesk c (by simp)
    have hcnot : c ∉ labels := hdis c (by simp)
    have hcand : stealCandidates labels ≠ [] :=
      stealCandidates_ne_nil labels k c hlen hbound hck hcnot
    obtain ⟨i, hsome, hmem⟩ :=
      argmaxBy_some_of_ne_nil (fun i => dists.getD i 0) (stealCandidates labels) hcand
    rw [mem_stealCandidates] at hmem
    obtain ⟨hi, hcnt⟩ := hmem
    have hsteal : stealIdx labels dists = some i := hsome
    simp only [relocateEmpties, hsteal]
    have hlen2 : k ≤ (labels.set i c).length := by rwa [List.length_set]
    have hbound2 : ∀ l ∈ labels.set i c, l < k := by
      intro l hl
      rcases List.mem_or_eq_of_mem_set hl with h | h
      · exact hbound l h
      · subst h; exact hck
    have hesk2 : ∀ c2 ∈ rest, c2 < k := fun c2 h => hesk c2 (by simp [h])
    have hnd2 : rest.Nodup := hnd.of_cons
    have hcnr : c ∉ rest := by
      intro h
      exact (List.nodup_cons.1 hnd).1 h
    have hdis2 : ∀ c2 ∈ rest, c2 ∉ labels.set i c := by
      intro c2 h2 hin
      rcases List.mem_or_eq_of_mem_set hin with h | h
      · exact hdis c2 (by simp [h2]) h
      · subst h; exact hcnr h2
    obtain ⟨ihmem, ihbound⟩ := ih (labels.set i c) (dists.set i 0)
      hlen2 hbound2 hesk2 hnd2 hdis2
    refine ⟨fun a ha => ?_, ihbound⟩
    rcases ha with ha | ha
    · exact ihmem a (Or.inl (mem_set_of_countable labels i c hcnt a ha))
    · rcases List.mem_cons.1 ha with rfl | ha
      · exact ihmem a (Or.inl (self_mem_set labels i a hi))
      · exact ihmem a (Or.inr ha)

theorem kmRelocate_main (k : Nat) (labels : List Nat) (dists : List ℚ)
    (hlen : k ≤ labels.length) (hbound : ∀ l ∈ labels, l < k) :
    (∀ c, c < k → c ∈ kmRelocate k labels dists)
    ∧ (∀ l ∈ kmRelocate k labels dists, l < k) := by
  have hesk : ∀ c ∈ emptyClusters k labels, c < k := by
    intro c hc
    rw [emptyClusters, List.mem_filter] at hc
    exact List.mem_range.1 hc.1
  have hnd : (emptyClusters k labels).Nodup :=
    (List.nodup_range k).filter _
  have hdis : ∀ c ∈ emptyClusters k labels, c ∉ labels := by
    intro c hc
    rw [emptyClusters, List.mem_filter] at hc
    exact of_decide_eq_true hc.2
  obtain ⟨hmem, hbd⟩ := relocateEmpties_main k (emptyClusters k labels) labels dists
    hlen hbound hesk hnd hdis
  refine ⟨fun c hc => ?_, hbd⟩
  by_cases hin : c ∈ labels
  · exact hmem c (Or.inl hin)
  · refine hmem c (Or.inr ?_)
    rw [emptyClusters, List.mem_filter]
    exact ⟨List.mem_range.2 hc, decide_eq_true hin⟩

/-- Counterexample to claim C3 as stated: the requested cluster count 0 is
falsy, so Python `or` silently replaces it with the default 10 and
clustering 2 documents produces min(10, 2) = 2 groups — not
min(requested, documents) = min(0, 2) = 0 groups. -/
theorem claim_C3_cex :
    (cluster (fun q => q) [[0], [1]] (some "kmeans") (some 0)).toOption = some [0, 1]
    ∧ ¬ (([0, 1] : List Int).dedup.length = min 0 2) := by
  exact ⟨by decide, by decide⟩

/-- Claim C3 (amended): for every non-empty batch of fused vectors and
every positive requested cluster count, the k-means strategy (the spec's
centroid strategy) partitions into exactly `min(n_clusters, documents)`
groups: every vector receives a label in `0..k-1` (never `-1`), and every
label in `0..k-1` is used. -/
theorem claim_C3 (rsqrt : ℚ → ℚ) (features : Mat) (n : Nat)
    (hne : features ≠ []) (hn : 1 ≤ n) :
    ∃ labels, cluster rsqrt features (some "kmeans") (some n) = .ok labels
      ∧ labels.length = features.length
      ∧ (∀ l ∈ labels, 0 ≤ l ∧ l < ((min n features.length : Nat) : Int))
      ∧ (∀ c : Nat, c < min n features.length → ((c : Nat) : Int) ∈ labels) := by
  have hn0 : n ≠ 0 := by omega
  have hflen : 0 < features.length := by
    cases features with
    | nil => exact absurd rfl hne
    | cons p r => simp
  have hempty : features.isEmpty = false := by
    cases features with
    | nil => exact absurd rfl hne
    | cons p r => rfl
  have hk0 : min n features.length ≠ 0 :=
    Nat.pos_iff_ne_zero.1 (lt_min (by omega) hflen)
  have hclust : cluster rsqrt features (some "kmeans") (some n) =
      .ok (kmeansFitPredict (min n features.length) features) := by
    simp [cluster, pyOrStr, pyOrNat, hn0, hempty]
  obtain ⟨p, rest, rfl⟩ : ∃ p rest, features = p :: rest := by
    cases features with
    | nil => exact absurd rfl hne
    | cons p r => exact ⟨p, r, rfl⟩
  set k := min n (p :: rest).length with hkdef
  set cs := lloydLoop (p :: rest) 300 (kmeansInit k (p :: rest)) with hcs
  set A := kmAssign cs (p :: rest) with hA
  set dists := kmAssignDists cs (p :: rest) with hdists
  have hkm : kmeansFitPredict k (p :: rest) = (kmRelocate k A dists).map Int.ofNat := by
    simp only [kmeansFitPredict, hk0, if_false]
  have hcs_len : cs.length = k := by
    rw [hcs, length_lloydLoop, length_kmeansInit k _ hk0 (by simp)]
  have hcs_ne : cs ≠ [] := by
    intro h
    rw [h, List.length_nil] at hcs_len
    exact hk0 hcs_len.symm
  have hA_bound : ∀ l ∈ A, l < k := by
    intro l hl
    have := kmAssign_lt cs (p :: rest) hcs_ne l hl
    rwa [hcs_len] at this
  have hA_len : A.length = (p :: rest).length := by simp [hA, kmAssign]
  have hkle : k ≤ A.length := by rw [hA_len, hkdef]; exact min_le_right _ _
  obtain ⟨hsurj, hbd⟩ := kmRelocate_main k A dists hkle hA_bound
  refine ⟨(kmRelocate k A dists).map Int.ofNat, ?_, ?_, ?_, ?_⟩
  · rw [hclust, hkm]
  · rw [List.length_map, length_kmRelocate, hA, kmAssign, List.length_map]
  · intro l hl
    obtain ⟨m, hm, rfl⟩ := List.mem_map.1 hl
    exact ⟨Int.ofNat_nonneg m, Int.ofNat_lt.2 (hbd m hm)⟩
  · intro c hc
    exact List.mem_map_of_mem Int.ofNat (hsurj c hc)

/-- Witness for claim C3: clustering 3 documents with `n_clusters = 5`
returns exactly 3 labels spanning `{0, 1, 2}` — concretely `[0, 2, 1]`. -/
theorem claim_C3_witness :
    (∃ labels, cluster (fun q => q) [[0], [10], [20]] (some "kmeans") (some 5) =
        .ok labels
      ∧ labels.length = 3
      ∧ (∀ l ∈ labels, 0 ≤ l ∧ l < ((min 5 3 : Nat) : Int))
      ∧ (∀ c : Nat, c < min 5 3 → ((c : Nat) : Int) ∈ labels))
    ∧ (cluster (fun q => q) [[0], [10], [20]] (some "kmeans") (some 5)).toOption
        = some [0, 2, 1] :=
  ⟨claim_C3 (fun q => q) [[0], [10], [20]] 5 (by decide) (by decide), by decide⟩
